import Mathlib

/-!
Verification of the ndtp_ids detection pipeline against its specification.

Each Python module relevant to the checked properties is shallowly embedded:
pure computations become Lean functions over exact arithmetic (`ℚ`, `ℝ`, `ℕ`),
database queries become explicit list/function parameters holding the rows the
query would return, and fallible operations return `Option`.  Free-text fields
(human-readable descriptions, wall-clock timestamps) are elided from record
embeddings, since no checked property mentions them.
-/

namespace NdtpIds

/- ====================================================================
   Hybrid scorer (hybrid_scorer.py, HybridScorer.score_host).
   Scores are modelled as exact rationals.
   ==================================================================== -/

/-- Fusion weights of the three detection layers
(`HybridScorer.__init__` defaults: w_sig=0.40, w_stat=0.25, w_ml=0.35). -/
structure FusionWeights where
  w_sig : ℚ
  w_stat : ℚ
  w_ml : ℚ
deriving DecidableEq

def defaultWeights : FusionWeights := ⟨2/5, 1/4, 7/20⟩

/-- Which layers are available to `score_host`: the Suricata engine and the
z-score detector count as active when their component loaded; the ML layer
counts only when its model is trained
(`self.ml_detector is not None and self.ml_detector.is_trained`). -/
structure LayerState where
  suricataActive : Bool
  statActive : Bool
  mlTrained : Bool
deriving DecidableEq

/-- `HybridScorer.score_host`, combined-score part (hybrid_scorer.py lines
321-373): per-layer weights are zeroed for inactive layers, a layer is counted
as triggered when its score strictly exceeds its threshold (`sig_score > 0.25`,
`stat_score > 0.5`, `ml_score > 0.5`), weights are renormalized to sum to 1,
the weighted sum gets the consensus boost, and the result is clamped. -/
def scoreHostCombined (w : FusionWeights) (ls : LayerState)
    (sigScore statScore mlScore : ℚ) : ℚ :=
  let wSig := if ls.suricataActive then w.w_sig else 0
  let wStat := if ls.statActive then w.w_stat else 0
  let wMl := if ls.mlTrained then w.w_ml else 0
  let triggered : ℕ :=
    (if ls.suricataActive ∧ 1/4 < sigScore then 1 else 0) +
    (if ls.statActive ∧ 1/2 < statScore then 1 else 0) +
    (if ls.mlTrained ∧ 1/2 < mlScore then 1 else 0)
  let total := wSig + wStat + wMl
  let wSigN := if 0 < total then wSig / total else 0
  let wStatN := if 0 < total then wStat / total else 0
  let wMlN := if 0 < total then wMl / total else 0
  let combined := wSigN * sigScore + wStatN * statScore + wMlN * mlScore
  let boosted :=
    if 3 ≤ triggered then min 1 (combined * (13/10))
    else if 2 ≤ triggered then min 1 (combined * (23/20))
    else combined
  min 1 (max 0 boosted)

/-- The fusion sum exactly as the specification sentence words it: the sum over
the active layers of the default weights renormalized to sum to 1 over those
layers, times the layer scores. -/
def specWeightedSum (ls : LayerState) (sigScore statScore mlScore : ℚ) : ℚ :=
  let layers : List (ℚ × ℚ) :=
    (if ls.suricataActive then [((2:ℚ)/5, sigScore)] else []) ++
    (if ls.statActive then [((1:ℚ)/4, statScore)] else []) ++
    (if ls.mlTrained then [((7:ℚ)/20, mlScore)] else [])
  let total := (layers.map Prod.fst).sum
  (layers.map (fun p => p.1 / total * p.2)).sum

/-- Triggered-layer count as the claim words it: a layer is triggered if
sig_score ≥ 0.25, stat_score ≥ 0.5, or ml_score ≥ 0.5 respectively. -/
def specTriggeredGe (ls : LayerState) (sigScore statScore mlScore : ℚ) : ℕ :=
  (if ls.suricataActive ∧ 1/4 ≤ sigScore then 1 else 0) +
  (if ls.statActive ∧ 1/2 ≤ statScore then 1 else 0) +
  (if ls.mlTrained ∧ 1/2 ≤ mlScore then 1 else 0)

/-- Triggered-layer count with strict thresholds, matching the code. -/
def specTriggeredGt (ls : LayerState) (sigScore statScore mlScore : ℚ) : ℕ :=
  (if ls.suricataActive ∧ 1/4 < sigScore then 1 else 0) +
  (if ls.statActive ∧ 1/2 < statScore then 1 else 0) +
  (if ls.mlTrained ∧ 1/2 < mlScore then 1 else 0)

/-- Combined score as the claim states it (triggered via ≥). -/
def hybridClaimScore (ls : LayerState) (sigScore statScore mlScore : ℚ) : ℚ :=
  let c := specWeightedSum ls sigScore statScore mlScore
  let t := specTriggeredGe ls sigScore statScore mlScore
  let c := if 3 ≤ t then c * (13/10) else if 2 ≤ t then c * (23/20) else c
  min 1 (max 0 c)

/-- Combined score as the claim amended to strict triggering thresholds. -/
def hybridAmendedScore (ls : LayerState) (sigScore statScore mlScore : ℚ) : ℚ :=
  let c := specWeightedSum ls sigScore statScore mlScore
  let t := specTriggeredGt ls sigScore statScore mlScore
  let c := if 3 ≤ t then c * (13/10) else if 2 ≤ t then c * (23/20) else c
  min 1 (max 0 c)


/- ====================================================================
   Metrics aggregator (aggregator.py, MetricsAggregator).
   Timestamps are exact rationals; the in-memory window map is an
   association list keyed by (window_start, src_ip).
   ==================================================================== -/

/-- One packet event as consumed by `MetricsAggregator.process_event`. -/
structure AggEvent where
  timestamp : ℚ
  src_ip : String
  dst_ip : String
  src_port : Option ℕ
  dst_port : Option ℕ
  protocol : String
  packet_size : ℕ
  direction : String
deriving DecidableEq

/-- Python `int(x)` on a float: truncation toward zero. -/
def pyTruncInt (q : ℚ) : ℤ := Int.tdiv q.num (q.den : ℤ)

/-- `MetricsAggregator.get_window_key`: `(int(timestamp) // window_seconds) *
window_seconds`.  Python `//` is floor division, i.e. `Int.fdiv`. -/
def getWindowKey (W : ℤ) (ts : ℚ) : ℤ := (Int.fdiv (pyTruncInt ts) W) * W

/-- Running counters of one open window (`self.current_window[key]`). -/
structure WindowData where
  window_start : ℤ
  window_end : ℤ
  src_ip : String
  connections : ℕ
  ports : Finset ℕ
  dst_ips : Finset String
  total_bytes : ℕ
  packet_count : ℕ
deriving DecidableEq

def emptyWindow (W ws : ℤ) (ip : String) : WindowData :=
  ⟨ws, ws + W, ip, 0, ∅, ∅, 0, 0⟩

/-- The per-event counter update of `process_event`: `connections += 1`;
`dst_port` is added to the port set only when present and truthy (Python
`if event.get('dst_port'):` is false for both `None` and `0`); `dst_ip` is
always added; `total_bytes += packet_size`; `packet_count += 1`. -/
def addEvent (wd : WindowData) (e : AggEvent) : WindowData :=
  { wd with
    connections := wd.connections + 1
    ports := match e.dst_port with
      | some p => if p ≠ 0 then insert p wd.ports else wd.ports
      | none => wd.ports
    dst_ips := insert e.dst_ip wd.dst_ips
    total_bytes := wd.total_bytes + e.packet_size
    packet_count := wd.packet_count + 1 }

/-- The in-memory map `self.current_window`. -/
abbrev AggState := List ((ℤ × String) × WindowData)

def lookupWindow (st : AggState) (k : ℤ × String) : Option WindowData :=
  (List.find? (fun p => decide (p.1 = k)) st).map Prod.snd

/-- Window-creation plus counter-update part of `process_event`. -/
def insertEvent (W : ℤ) (st : AggState) (e : AggEvent) : AggState :=
  let k := (getWindowKey W e.timestamp, e.src_ip)
  match lookupWindow st k with
  | none => [(k, addEvent (emptyWindow W k.1 e.src_ip) e)] ++ st
  | some _ => List.map (fun p => if p.1 = k then (p.1, addEvent p.2 e) else p) st

/-- `_flush_old_windows` flush condition: `current_time - window_start >=
window_seconds`. -/
def windowExpired (W : ℤ) (now : ℚ) (ws : ℤ) : Bool :=
  decide ((W : ℚ) ≤ now - (ws : ℚ))

/-- `process_event`: update the window of the event, then flush (save and
remove) every window whose start lies a full window behind the event's
timestamp.  Returns the new map and the flushed windows. -/
def processEvent (W : ℤ) (st : AggState) (e : AggEvent) :
    AggState × List WindowData :=
  let st1 := insertEvent W st e
  (List.filter (fun p => !windowExpired W e.timestamp p.1.1) st1,
   List.map Prod.snd (List.filter (fun p => windowExpired W e.timestamp p.1.1) st1))

/-- Ingest a sequence of events from the empty map, accumulating every
flushed window in order. -/
def processEvents (W : ℤ) (events : List AggEvent) : AggState × List WindowData :=
  List.foldl (fun acc e =>
      let r := processEvent W acc.1 e
      (r.1, acc.2 ++ r.2))
    (([] : List ((ℤ × String) × WindowData)), ([] : List WindowData)) events

/-- All windows the aggregator ever saves for a given input: those flushed
while ingesting plus the final `flush_all()`. -/
def closedWindows (W : ℤ) (events : List AggEvent) : List WindowData :=
  (processEvents W events).2 ++ List.map Prod.snd (processEvents W events).1

/-- The five metrics written per closed window by `_save_window`;
`avg_packet_size = total_bytes / packet_count` when `packet_count > 0`,
else `0`. -/
structure MetricVector where
  connections_count : ℕ
  unique_ports : ℕ
  unique_dst_ips : ℕ
  total_bytes : ℕ
  avg_packet_size : ℚ
deriving DecidableEq

def saveWindow (wd : WindowData) : MetricVector :=
  ⟨wd.connections, wd.ports.card, wd.dst_ips.card, wd.total_bytes,
   if 0 < wd.packet_count then (wd.total_bytes : ℚ) / (wd.packet_count : ℚ) else 0⟩

/-- The counters a window holds after absorbing exactly the events `es`. -/
def buildWindow (W ws : ℤ) (ip : String) (es : List AggEvent) : WindowData :=
  List.foldl addEvent (emptyWindow W ws ip) es

/-- A map entry is well-formed when its counters were built from a nonempty
list of events all keyed to this entry. -/
def WindowFromEvents (W : ℤ) (k : ℤ × String) (wd : WindowData) : Prop :=
  ∃ es : List AggEvent, es ≠ [] ∧
    (∀ e ∈ es, (getWindowKey W e.timestamp, e.src_ip) = k) ∧
    wd = buildWindow W k.1 k.2 es

def AggStateInv (W : ℤ) (st : AggState) : Prop :=
  ∀ p ∈ st, WindowFromEvents W p.1 p.2

/-- A sample ingested event used to instantiate proved properties. -/
def sampleEvent : AggEvent := ⟨0, "10.0.0.1", "10.0.0.2", some 1000, some 80, "TCP", 100, "out"⟩

/-- The window the aggregator saves for `sampleEvent` under `flush_all`. -/
def sampleWindow : WindowData := ⟨0, 60, "10.0.0.1", 1, {80}, {"10.0.0.2"}, 100, 1⟩


/- ====================================================================
   Statistical anomaly detector (anomaly_detector.py, AnomalyDetector).
   Metric values are modelled as exact reals; the `aggregated_metrics`
   query is a function from metric name to the newest-first value list.
   ==================================================================== -/

open scoped Classical

noncomputable section

/-- `AnomalyDetector.calculate_statistics`: take the newest 50 values
(`ORDER BY timestamp DESC LIMIT 50`); fewer than 2 values gives
(0.0, 0.0, count); otherwise the mean and the population standard deviation.
Returns (mean, std, count). -/
def calculateStatistics (history : List ℝ) : ℝ × ℝ × ℕ :=
  let values := history.take 50
  if values.length < 2 then (0, 0, values.length)
  else
    let mean := values.sum / (values.length : ℝ)
    let variance := (values.map (fun x => (x - mean)^2)).sum / (values.length : ℝ)
    (mean, Real.sqrt variance, values.length)

/-- `AnomalyDetector.calculate_z_score`: 0 when std = 0, else |(x − μ)/σ|. -/
def calculateZScore (current mean std : ℝ) : ℝ :=
  if std = 0 then 0 else |(current - mean) / std|

/-- `AnomalyDetector.get_severity`. -/
def getSeverity (z : ℝ) : String :=
  if 5 ≤ z then "critical"
  else if 4 ≤ z then "high"
  else if 3 ≤ z then "medium"
  else "low"

/-- A statistical alert (anomaly_detector.py `Alert`); the wall-clock
timestamp and free-text description are elided. -/
structure StatAlert where
  src_ip : String
  anomaly_type : String
  score : ℝ
  current_value : ℝ
  mean_value : ℝ
  std_value : ℝ
  threshold : ℝ
  severity : String

/-- `AnomalyDetector.check_metric`: skip when fewer than 3 observations,
otherwise alert when the z-score reaches the threshold. -/
def checkMetric (threshold : ℝ) (hist : String → List ℝ)
    (ip metricName : String) (current : ℝ) : Option StatAlert :=
  let s := calculateStatistics (hist metricName)
  if s.2.2 < 3 then none
  else
    let z := calculateZScore current s.1 s.2.1
    if threshold ≤ z then
      some ⟨ip, metricName, z, current, s.1, s.2.1, threshold, getSeverity z⟩
    else none

/-- The current window's metric row as read by `analyze_window`. -/
structure StatWindow where
  src_ip : String
  connections_count : ℝ
  unique_ports : ℝ
  unique_dst_ips : ℝ
  total_bytes : ℝ
  avg_packet_size : ℝ

/-- `AnomalyDetector.analyze_window`: checks exactly these four metrics of the
window (`metrics_to_check`); `avg_packet_size` is not among them. -/
def analyzeWindow (threshold : ℝ) (hist : String → List ℝ)
    (w : StatWindow) : List StatAlert :=
  [("connections_count", w.connections_count),
   ("unique_ports", w.unique_ports),
   ("unique_dst_ips", w.unique_dst_ips),
   ("total_bytes", w.total_bytes)].filterMap
    (fun p => checkMetric threshold hist w.src_ip p.1 p.2)

/-- The metric names `analyze_window` does check. -/
def statCheckedMetrics : List String :=
  ["connections_count", "unique_ports", "unique_dst_ips", "total_bytes"]

/-- The current value `analyze_window` passes for a metric name. -/
def statCurrent (w : StatWindow) (name : String) : ℝ :=
  if name = "connections_count" then w.connections_count
  else if name = "unique_ports" then w.unique_ports
  else if name = "unique_dst_ips" then w.unique_dst_ips
  else if name = "total_bytes" then w.total_bytes
  else if name = "avg_packet_size" then w.avg_packet_size
  else 0

/-- One `device_profiles` row (the stat detector's persisted baseline);
`last_updated` is elided. -/
structure BaselineRow where
  src_ip : String
  metric_name : String
  mean : ℝ
  std : ℝ
  min_value : ℝ
  max_value : ℝ
  sample_count : ℕ

/-- SQL `MIN(metric_value)` with the code's `0.0` fallback for NULL. -/
def sqlMin (l : List ℝ) : ℝ :=
  match l with
  | [] => 0
  | x :: xs => List.foldl min x xs

/-- SQL `MAX(metric_value)` with the code's `0.0` fallback for NULL. -/
def sqlMax (l : List ℝ) : ℝ :=
  match l with
  | [] => 0
  | x :: xs => List.foldl max x xs

/-- `AnomalyDetector.update_host_profile` as it actually executes: the
`for metric_name in metrics` loop body holds only the `calculate_statistics`
call; the MIN/MAX query and the `INSERT OR REPLACE` sit outside the loop
(indentation), so after the loop only the bindings of the last iteration
(`metric_name = 'total_bytes'`) survive and a single row is upserted. -/
def updateHostProfile (hist : String → List ℝ) (ip : String) : List BaselineRow :=
  let metricName := "total_bytes"
  let s := calculateStatistics (hist metricName)
  [⟨ip, metricName, s.1, s.2.1, sqlMin (hist metricName), sqlMax (hist metricName), s.2.2⟩]

/-- A metric history whose only anomalous signal sits in `avg_packet_size`. -/
def anomalousAvgHist : String → List ℝ :=
  fun m => if m = "avg_packet_size" then [0, 0, 6, 6] else []

/-- A window whose `avg_packet_size` is wildly above that baseline. -/
def anomalousAvgWindow : StatWindow := ⟨"10.0.0.5", 0, 0, 0, 0, 100⟩

/-- A flat history: two identical `total_bytes` observations. -/
def flatHist : String → List ℝ := fun _ => [5, 5]

/-- A host with no stored windows at all. -/
def emptyHist : String → List ℝ := fun _ => []

end


/- ====================================================================
   Adaptive trainer (adaptive_trainer.py, AdaptiveTrainer) and the ML
   training-data selection (ml_detector.py).  State is modelled per
   host (every query filters on src_ip); the metrics-history table is a
   newest-first list.
   ==================================================================== -/

/-- One `metrics_history` row for the host (timestamp elided; the list order
models `ORDER BY timestamp DESC`). -/
structure TrainerHistRow where
  connections_count : ℝ
  unique_ports : ℝ
  unique_dst_ips : ℝ
  total_bytes : ℝ
  avg_packet_size : ℝ
  is_anomaly : Bool

/-- The host's `host_profiles` row (`last_updated` elided). -/
structure TrainerProfile where
  connections_mean : ℝ
  connections_std : ℝ
  unique_ports_mean : ℝ
  unique_ports_std : ℝ
  unique_dst_ips_mean : ℝ
  unique_dst_ips_std : ℝ
  total_bytes_mean : ℝ
  total_bytes_std : ℝ
  avg_packet_size_mean : ℝ
  avg_packet_size_std : ℝ
  samples_count : ℕ
  is_learning : Bool

/-- The trainer's per-host persistent state. -/
structure TrainerState where
  history : List TrainerHistRow
  profile : Option TrainerProfile

/-- `AdaptiveTrainer.is_in_learning_mode`: a host with no profile row is in
learning mode by default. -/
def trainerIsLearning (st : TrainerState) : Bool :=
  match st.profile with
  | none => true
  | some p => p.is_learning

/-- Python dict lookup `metrics.get(name, 0)`. -/
def metricGet (ms : List (String × ℝ)) (name : String) : ℝ :=
  ((List.find? (fun p => decide (p.1 = name)) ms).map Prod.snd).getD 0

noncomputable section

/-- `calc_stats` inside `_update_host_profile` (defaults:
min_std_deviation = 0.01): mean and population std, with the floor applied
only to empty input and to exactly-zero variance. -/
def calcStats (values : List ℝ) : ℝ × ℝ :=
  if values = [] then (0, 1/100)
  else
    let mean := values.sum / (values.length : ℝ)
    let variance := (values.map (fun x => (x - mean)^2)).sum / (values.length : ℝ)
    (mean, if 0 < variance then Real.sqrt variance else 1/100)

/-- `AdaptiveTrainer._update_host_profile` (defaults: sliding_window_size = 50,
ewma_alpha = 0.1, learning_window = 100): recompute the five (mean, std)
pairs from the newest 50 NON-anomalous history rows; blend with EWMA when a
profile exists and the host is out of learning mode; upsert the profile.
No-op when the host has no non-anomalous history. -/
def trainerUpdateProfile (st : TrainerState) : TrainerState :=
  let samples := (List.filter (fun r => !r.is_anomaly) st.history).take 50
  if samples = [] then st
  else
    let cnt := samples.length
    let connS := calcStats (samples.map TrainerHistRow.connections_count)
    let portS := calcStats (samples.map TrainerHistRow.unique_ports)
    let dstS := calcStats (samples.map TrainerHistRow.unique_dst_ips)
    let bytesS := calcStats (samples.map TrainerHistRow.total_bytes)
    let pktS := calcStats (samples.map TrainerHistRow.avg_packet_size)
    let blended :=
      match st.profile with
      | some p =>
        if trainerIsLearning st then
          (connS, portS, dstS, bytesS, pktS)
        else
          ((1/10 * connS.1 + (1 - 1/10) * p.connections_mean,
            1/10 * connS.2 + (1 - 1/10) * p.connections_std),
           (1/10 * portS.1 + (1 - 1/10) * p.unique_ports_mean,
            1/10 * portS.2 + (1 - 1/10) * p.unique_ports_std),
           (1/10 * dstS.1 + (1 - 1/10) * p.unique_dst_ips_mean,
            1/10 * dstS.2 + (1 - 1/10) * p.unique_dst_ips_std),
           (1/10 * bytesS.1 + (1 - 1/10) * p.total_bytes_mean,
            1/10 * bytesS.2 + (1 - 1/10) * p.total_bytes_std),
           (1/10 * pktS.1 + (1 - 1/10) * p.avg_packet_size_mean,
            1/10 * pktS.2 + (1 - 1/10) * p.avg_packet_size_std))
      | none => (connS, portS, dstS, bytesS, pktS)
    let newProfile : TrainerProfile :=
      ⟨blended.1.1, blended.1.2, blended.2.1.1, blended.2.1.2,
       blended.2.2.1.1, blended.2.2.1.2, blended.2.2.2.1.1, blended.2.2.2.1.2,
       blended.2.2.2.2.1, blended.2.2.2.2.2, cnt, decide (cnt < 100)⟩
    { st with profile := some newProfile }

/-- `AdaptiveTrainer.add_metrics_sample`: an observation flagged as anomalous
for a host that is NOT in learning mode is dropped entirely (returns False);
otherwise the row is appended to the history (flag preserved) and the profile
is refreshed. -/
def addMetricsSample (st : TrainerState) (ms : List (String × ℝ))
    (isAnomalyFlag : Bool) : TrainerState × Bool :=
  if isAnomalyFlag ∧ ¬ trainerIsLearning st then (st, false)
  else
    let row : TrainerHistRow :=
      ⟨metricGet ms "connections_count", metricGet ms "unique_ports",
       metricGet ms "unique_dst_ips", metricGet ms "total_bytes",
       metricGet ms "avg_packet_size", isAnomalyFlag⟩
    (trainerUpdateProfile { st with history := row :: st.history }, true)

end

/-- One `ml_training_data` row (timestamp elided). -/
structure TrainingRow where
  src_ip : String
  connections_count : ℝ
  unique_ports : ℝ
  unique_dst_ips : ℝ
  total_bytes : ℝ
  avg_packet_size : ℝ
  is_normal : Bool

/-- The feature matrix `MLAnomalyDetector.train` fits on: exactly the rows
selected by `SELECT ... FROM ml_training_data WHERE is_normal = 1`. -/
def trainingMatrix (tbl : List TrainingRow) : List (List ℝ) :=
  List.map (fun r => [r.connections_count, r.unique_ports, r.unique_dst_ips,
    r.total_bytes, r.avg_packet_size])
    (List.filter (fun r => r.is_normal) tbl)

/-- A host profile already out of learning mode, with a flat baseline. -/
def detectionModeState : TrainerState :=
  ⟨[], some ⟨10, 1, 10, 1, 10, 1, 10, 1, 10, 1, 100, false⟩⟩


/- ====================================================================
   ML anomaly detector (ml_detector.py, MLAnomalyDetector).  The fitted
   Isolation Forest and StandardScaler are opaque library artifacts:
   the decision function and the scaler's per-column mean/scale are
   free parameters of the model state.  A trained state always carries
   its model, so `is_trained` also covers the `self.model is None`
   check.
   ==================================================================== -/

/-- `MLAnomalyDetector.FEATURE_NAMES`, fixed order. -/
def mlFeatureNames : List String :=
  ["connections_count", "unique_ports", "unique_dst_ips", "total_bytes", "avg_packet_size"]

structure MLModelState where
  is_trained : Bool
  decisionRaw : List ℝ → ℝ
  scalerMean : List ℝ
  scalerScale : List ℝ

/-- `StandardScaler.transform`: componentwise (x − mean) / scale. -/
noncomputable def standardize (m : MLModelState) (xs : List ℝ) : List ℝ :=
  List.zipWith (fun x p => (x - p.1) / p.2) xs (m.scalerMean.zip m.scalerScale)

/-- `MLAnomalyDetector._extract_features`: the five metric values in
FEATURE_NAMES order, absent keys becoming 0. -/
def extractFeatures (ms : List (String × ℝ)) : List ℝ :=
  mlFeatureNames.map (metricGet ms)

noncomputable section

/-- `MLAnomalyDetector._get_ml_score`: 0 when untrained; else the logistic
mapping `1 / (1 + exp(raw * 5))` of the decision score on the standardized
features, clipped to [0, 1] (`np.clip`). -/
def getMlScore (m : MLModelState) (features : List ℝ) : ℝ :=
  if ¬ m.is_trained then 0
  else
    let raw := m.decisionRaw (standardize m features)
    min 1 (max 0 (1 / (1 + Real.exp (raw * 5))))

/-- `MLAnomalyDetector._get_stat_score`, score component (the expository
per-feature contribution list is elided): per feature, the z-score against the
newest 50 historical values (0 when fewer than 3 or when std is 0), then the
normalized `1 / (1 + exp(−(max_z − z_threshold)))`, clipped to [0, 1]. -/
def getStatScore (threshold : ℝ) (hist : String → List ℝ)
    (ms : List (String × ℝ)) : ℝ :=
  let zs := mlFeatureNames.map (fun name =>
    let values := (hist name).take 50
    if values.length < 3 then 0
    else
      let mean := values.sum / (values.length : ℝ)
      let variance := (values.map (fun x => (x - mean)^2)).sum / (values.length : ℝ)
      let std := Real.sqrt variance
      if 0 < std then |(metricGet ms name - mean) / std| else 0)
  match zs with
  | [] => 0
  | z :: rest =>
    let maxZ := List.foldl max z rest
    min 1 (max 0 (1 / (1 + Real.exp (-(maxZ - threshold)))))

/-- An `MLAlert` (timestamp, free-text description, anomaly-type tag and
top-features list elided). -/
structure HybridMLAlert where
  src_ip : String
  ml_score : ℝ
  stat_score : ℝ
  combined_score : ℝ
  severity : String

/-- `MLAnomalyDetector.detect`: hybrid score `alpha·stat + (1−alpha)·ml` when
trained, else `stat` with ml_score forced to 0; no alert below the combined
threshold 0.5; severity ladder 0.9/0.75/0.6. -/
def mlDetect (alpha threshold : ℝ) (m : MLModelState) (hist : String → List ℝ)
    (ip : String) (ms : List (String × ℝ)) : Option HybridMLAlert :=
  let features := extractFeatures ms
  let mlScore := getMlScore m features
  let statScore := getStatScore threshold hist ms
  let combined := if m.is_trained then alpha * statScore + (1 - alpha) * mlScore
    else statScore
  let mlScoreFinal := if m.is_trained then mlScore else 0
  if combined < 1/2 then none
  else
    some ⟨ip, mlScoreFinal, statScore, combined,
      if 9/10 ≤ combined then "critical"
      else if 3/4 ≤ combined then "high"
      else if 3/5 ≤ combined then "medium"
      else "low"⟩

/-- The logistic function σ of the claim. -/
def logistic (t : ℝ) : ℝ := 1 / (1 + Real.exp (-t))

/-- The combined score exactly as the claim words it:
0.4·stat_score + 0.6·ml_score when a model is trained, stat_score otherwise. -/
def mlCombinedSpec (threshold : ℝ) (m : MLModelState) (hist : String → List ℝ)
    (ms : List (String × ℝ)) : ℝ :=
  if m.is_trained then
    2/5 * getStatScore threshold hist ms + 3/5 * getMlScore m (extractFeatures ms)
  else getStatScore threshold hist ms

end

/-- An untrained model state. -/
def untrainedModel : MLModelState := ⟨false, fun _ => 0, [], []⟩


/- ====================================================================
   Suricata rule engine (suricata_rules.py, suricata_engine.py).
   Rule text is handled as `List Char`; the scanners below implement the
   regular expressions of `parse_rule` (documented inline).  Everything
   here is computable.
   ==================================================================== -/

/-- Python `\w` (ASCII scope of the rules in this repository). -/
def isWordChar (c : Char) : Bool := c.isAlphanum || c = '_'

def digitsToNat (cs : List Char) : ℕ :=
  cs.foldl (fun n c => n * 10 + (c.toNat - '0'.toNat)) 0

def isDigits (cs : List Char) : Bool := !cs.isEmpty && cs.all Char.isDigit

/-- Python `str.strip()`. -/
def stripChars (cs : List Char) : List Char :=
  ((cs.dropWhile Char.isWhitespace).reverse.dropWhile Char.isWhitespace).reverse

/-- Python `str.split(sep)` for a one-character separator. -/
def splitOnChar (c : Char) : List Char → List (List Char)
  | [] => [[]]
  | x :: xs =>
    let r := splitOnChar c xs
    if x = c then [] :: r
    else match r with
      | [] => [[x]]
      | y :: ys => (x :: y) :: ys

/-- Python `str.partition(sep)` / `str.split(sep, 1)` for one character:
(before, separator-found, after). -/
def partitionOnChar (c : Char) : List Char → List Char × Bool × List Char
  | [] => ([], false, [])
  | x :: xs =>
    if x = c then ([], true, xs)
    else
      let r := partitionOnChar c xs
      (x :: r.1, r.2.1, r.2.2)

/-- Python `int(s)` on a token: optional surrounding whitespace, optional
sign, at least one digit; `none` models the raised ValueError. -/
def pyInt? (s0 : List Char) : Option ℤ :=
  match stripChars s0 with
  | '+' :: rest => if isDigits rest then some (digitsToNat rest : ℤ) else none
  | '-' :: rest => if isDigits rest then some (-(digitsToNat rest : ℤ)) else none
  | rest => if isDigits rest then some (digitsToNat rest : ℤ) else none

/-- `SuricataRuleParser._match_port`: `any` matches everything; an absent
packet port matches only `any`; then the literal, `lo:hi` range, and the
bracket forms `[lo-hi]`, `[lo:hi]`, `[p1,p2,…]` are tried in order, each
parse failure silently falling through to the next form. -/
def matchPort (rulePort : String) (packetPort : Option ℕ) : Bool :=
  let rp := rulePort.data
  if rulePort = "any" then true
  else if packetPort.isNone then decide (rulePort = "any")
  else
    let p : ℤ := (packetPort.getD 0 : ℤ)
    if isDigits rp && decide ((digitsToNat rp : ℤ) = p) then true
    else
      let rangeHit :=
        if rp.contains ':' && !(rp.headD ' ' = '[') then
          match splitOnChar ':' rp with
          | [a, b] =>
            match pyInt? a, pyInt? b with
            | some lo, some hi => decide (lo ≤ p ∧ p ≤ hi)
            | _, _ => false
          | _ => false
        else false
      if rangeHit then true
      else if (rp.headD ' ' = '[') && (rp.getLast? = some ']') then
        let inner := (rp.drop 1).dropLast
        let dashHit :=
          if inner.contains '-' then
            let pr := partitionOnChar '-' inner
            match pyInt? pr.1, pyInt? pr.2.2 with
            | some lo, some hi => decide (lo ≤ p ∧ p ≤ hi)
            | _, _ => false
          else false
        if dashHit then true
        else
          let colonHit :=
            if inner.contains ':' then
              let pr := partitionOnChar ':' inner
              match pyInt? pr.1, pyInt? pr.2.2 with
              | some lo, some hi => decide (lo ≤ p ∧ p ≤ hi)
              | _, _ => false
            else false
          if colonHit then true
          else if inner.contains ',' then
            match (splitOnChar ',' inner).mapM (fun q => pyInt? (stripChars q)) with
            | some ports => ports.contains p
            | none => false
          else false
      else false

/-- A dotted-quad IPv4 address as a 32-bit value; `ipaddress` rejects
octets above 255, non-digits and leading zeros. -/
def parseIPv4 (s : List Char) : Option ℕ :=
  match splitOnChar '.' s with
  | [a, b, c, d] =>
    let ok (t : List Char) : Bool :=
      isDigits t && decide (digitsToNat t ≤ 255) &&
        (decide (t.length = 1) || decide (t.headD '0' ≠ '0'))
    if ok a && ok b && ok c && ok d then
      some (digitsToNat a * 16777216 + digitsToNat b * 65536 +
        digitsToNat c * 256 + digitsToNat d)
    else none
  | _ => none

/-- `ipaddress.ip_network(s, strict=False)` for the `a.b.c.d/n` shape used by
the rules: address plus numeric prefix length 0..32.  (A dotted-netmask
prefix is modelled as a parse failure, i.e. it takes the same fallback path
as any other unparsable network.) -/
def parseCidr (s : List Char) : Option (ℕ × ℕ) :=
  match splitOnChar '/' s with
  | [addr, pfx] =>
    match parseIPv4 addr with
    | some a =>
      if isDigits pfx && decide (digitsToNat pfx ≤ 32) then some (a, digitsToNat pfx)
      else none
    | none => none
  | _ => none

/-- `rule_ip.split('/')[0].rsplit('.', 1)[0]`: the text before the last dot
(the whole text when there is no dot). -/
def beforeLastDot (cs : List Char) : List Char :=
  match cs.reverse.dropWhile (fun c => c ≠ '.') with
  | [] => cs
  | _ :: rest => rest.reverse

/-- `SuricataRuleParser._match_ip`: `any`, exact string equality, true CIDR
membership via `ipaddress` (high prefix bits must agree), and on any parse
failure the documented prefix-string fallback. -/
def matchIp (ruleIp packetIp : String) : Bool :=
  if ruleIp = "any" then true
  else if ruleIp = packetIp then true
  else if ruleIp.data.contains '/' then
    match parseCidr ruleIp.data, parseIPv4 packetIp.data with
    | some (net, pfx), some addr =>
      decide (addr / 2^(32 - pfx) = net / 2^(32 - pfx))
    | _, _ =>
      let addrPart := ((splitOnChar '/' ruleIp.data).headD [])
      (beforeLastDot addrPart).isPrefixOf packetIp.data
  else false

/-- Python `str.lower()` on the ASCII protocol/rule strings. -/
def lowerStr (s : String) : String := String.mk (s.data.map Char.toLower)

/-- A parsed Suricata rule (suricata_rules.py `SuricataRule`). -/
structure Rule where
  action : String
  protocol : String
  src_ip : String
  src_port : String
  direction : String
  dst_ip : String
  dst_port : String
  options : List (String × String)
  sid : ℕ
  msg : String
  raw_rule : String
deriving DecidableEq

/-- One whitespace-delimited header field followed by the mandatory `\s+`:
the greedy `\S+`/`\w+` groups of the header regex
`^(\w+)\s+(\w+)\s+(\S+)\s+(\S+)\s+(->|<>)\s+(\S+)\s+(\S+)\s+\((.*)\)$`
each stop at the first whitespace, which the regex then requires. -/
def readField (cs : List Char) : Option (List Char × List Char) :=
  let tok := cs.takeWhile (fun c => !c.isWhitespace)
  let rest := cs.dropWhile (fun c => !c.isWhitespace)
  if tok.isEmpty then none
  else if rest.isEmpty then none
  else some (tok, rest.dropWhile Char.isWhitespace)

/-- One leftmost match of the quoted-option regex `([\w-]+):\s*"([^"]*)"`
anchored at the current position. -/
def tryQuotedAt (cs : List Char) : Option (String × String × List Char) :=
  let key := cs.takeWhile (fun c => isWordChar c || c = '-')
  if key.isEmpty then none
  else
    match cs.drop key.length with
    | ':' :: r1 =>
      match r1.dropWhile Char.isWhitespace with
      | '"' :: r3 =>
        let v := r3.takeWhile (fun c => c ≠ '"')
        match r3.drop v.length with
        | '"' :: r4 => some (String.mk key, String.mk v, r4)
        | _ => none
      | _ => none
    | _ => none

/-- `re.finditer` of the quoted-option regex: leftmost non-overlapping
matches, scanning resumes after each match. -/
def scanQuoted : ℕ → List Char → List (String × String)
  | 0, _ => []
  | _, [] => []
  | fuel + 1, cs =>
    match tryQuotedAt cs with
    | some (k, v, after) => (k, v) :: scanQuoted fuel after
    | none =>
      match cs with
      | [] => []
      | _ :: rest => scanQuoted fuel rest

/-- Python dict assignment `options[key] = value` (overwrite in place). -/
def upsertOpt : List (String × String) → String → String → List (String × String)
  | [], k, v => [(k, v)]
  | (k0, v0) :: rest, k, v =>
    if k0 = k then (k, v) :: rest else (k0, v0) :: upsertOpt rest k v

def containsKeyB (opts : List (String × String)) (k : String) : Bool :=
  opts.any (fun p => decide (p.1 = k))

/-- `re.search(r'sid:\s*(\d+)', options_str)`: the leftmost position where
the literal `sid:` is followed by optional whitespace and at least one
digit; the captured group is the maximal digit run. -/
def findSid : ℕ → List Char → Option ℕ
  | 0, _ => none
  | _, [] => none
  | fuel + 1, cs =>
    match cs with
    | 's' :: 'i' :: 'd' :: ':' :: r1 =>
      let ds := (r1.dropWhile Char.isWhitespace).takeWhile Char.isDigit
      if ds.isEmpty then
        match cs with
        | [] => none
        | _ :: rest => findSid fuel rest
      else some (digitsToNat ds)
    | _ :: rest => findSid fuel rest
    | [] => none

/-- `SuricataRuleParser.parse_rule`: strip; drop blank lines and `#` comments;
match the header regex (seven fields, direction exactly `->` or `<>`, options
in a trailing parenthesized group ending the line); collect quoted options
(the last quoted `msg` wins), then unquoted `key:value` options split on `;`
(skipped when empty, already quoted, or already present); extract `sid` with
its own regex, defaulting to 0 when absent.  There is NO rejection of rules
lacking `sid` or `msg`. -/
def parseRule (ruleText : String) : Option Rule := do
  let t := stripChars ruleText.data
  if t.isEmpty then none
  else if t.headD ' ' = '#' then none
  else do
    let (tok1, r1) ← readField t
    guard (tok1.all isWordChar)
    let (tok2, r2) ← readField r1
    guard (tok2.all isWordChar)
    let (tok3, r3) ← readField r2
    let (tok4, r4) ← readField r3
    let (tok5, r5) ← readField r4
    guard (tok5 = ['-', '>'] ∨ tok5 = ['<', '>'])
    let (tok6, r6) ← readField r5
    let (tok7, r7) ← readField r6
    match r7 with
    | '(' :: body =>
      if body.getLast? = some ')' then
        let optionsStr := body.dropLast
        let quoted := scanQuoted optionsStr.length optionsStr
        let optsQ := quoted.foldl (fun acc p => upsertOpt acc p.1 p.2) []
        let msg := ((quoted.filter (fun p => decide (p.1 = "msg"))).getLast?).elim ""
          Prod.snd
        let parts := splitOnChar ';' optionsStr
        let opts := parts.foldl (fun acc part =>
          let q := stripChars part
          if q.isEmpty then acc
          else if q.contains '"' then acc
          else if q.contains ':' then
            let pr := partitionOnChar ':' q
            let k := String.mk (stripChars pr.1)
            let v := String.mk (stripChars pr.2.2)
            if !(k = "") && !(v = "") && !containsKeyB acc k then acc ++ [(k, v)]
            else acc
          else acc) optsQ
        let sid := (findSid optionsStr.length optionsStr).getD 0
        some ⟨String.mk tok1, String.mk tok2, String.mk tok3, String.mk tok4,
          String.mk tok5, String.mk tok6, String.mk tok7, opts, sid, msg,
          String.mk t⟩
      else none
    | _ => none

/-- `SuricataRuleParser.match_packet`: walk the loaded rules in order; a rule
is skipped unless its protocol is `ip` or equals the packet's protocol
case-insensitively, both IP selectors match and both port selectors match;
every surviving rule produces one match. -/
def matchPacket (rules : List Rule) (e : AggEvent) : List Rule :=
  match rules with
  | [] => []
  | r :: rest =>
    if lowerStr r.protocol ≠ "ip" ∧ lowerStr r.protocol ≠ lowerStr e.protocol then
      matchPacket rest e
    else if matchIp r.src_ip e.src_ip = false then matchPacket rest e
    else if matchIp r.dst_ip e.dst_ip = false then matchPacket rest e
    else if matchPort r.src_port e.src_port = false then matchPacket rest e
    else if matchPort r.dst_port e.dst_port = false then matchPacket rest e
    else r :: matchPacket rest e

/-- `SuricataEngine._get_severity_from_rule`: classification of the RULE's
destination-port selector string (not of the packet). -/
def getSeverityFromRule (r : Rule) : String :=
  if r.dst_port = "23" ∨ r.dst_port = "445" ∨ r.dst_port = "135" ∨ r.dst_port = "3389" then
    "critical"
  else if r.dst_port = "22" ∨ r.dst_port = "5900" ∨ r.dst_port = "5901" then "high"
  else if r.action = "drop" ∨ r.action = "reject" then "high"
  else "medium"

/-- One persisted `suricata_alerts` row (timestamp and free-text reason
elided). -/
structure SigAlert where
  sid : ℕ
  src_ip : String
  src_port : Option ℕ
  dst_ip : String
  dst_port : Option ℕ
  protocol : String
  action : String
  msg : String
  severity : String
deriving DecidableEq

def mkSigAlert (e : AggEvent) (r : Rule) : SigAlert :=
  ⟨r.sid, e.src_ip, e.src_port, e.dst_ip, e.dst_port, e.protocol, r.action, r.msg,
   getSeverityFromRule r⟩

/-- `SuricataEngine.check_packet`: one alert built and saved per match, in
match order; the returned list equals the persisted rows. -/
def checkPacket (rules : List Rule) (e : AggEvent) : List SigAlert :=
  List.map (mkSigAlert e) (matchPacket rules e)

/-- `INSERT OR REPLACE INTO suricata_rules` keyed by sid. -/
def upsertRule (db : List Rule) (r : Rule) : List Rule :=
  if db.any (fun x => decide (x.sid = r.sid)) then
    db.map (fun x => if x.sid = r.sid then r else x)
  else db ++ [r]

/-- `SuricataEngine.add_rule`: parse, reject on failure, else upsert. -/
def addRule (db : List Rule) (line : String) : List Rule × Bool :=
  match parseRule line with
  | none => (db, false)
  | some r => (upsertRule db r, true)

/-- The loop body of `SuricataEngine.add_rules_from_text`: strip the line,
skip blanks and comments, add the rule, count only successful adds. -/
def addRulesStep (acc : List Rule × ℕ) (line : String) : List Rule × ℕ :=
  let l := stripChars line.data
  if l.isEmpty || (l.headD ' ' = '#') then acc
  else
    let r := addRule acc.1 (String.mk l)
    (r.1, acc.2 + if r.2 then 1 else 0)

/-- `SuricataEngine.add_rules_from_text`. -/
def addRulesFromText (db : List Rule) (lines : List String) : List Rule × ℕ :=
  lines.foldl addRulesStep (db, 0)

/-- The privileged-port range rule of DEFAULT_RULES (sid 1000003). -/
def bracketRangeRule : Rule :=
  ⟨"alert", "tcp", "any", "any", "->", "any", "[1-1024]", [], 1000003,
   "Connection to Privileged Port",
   "alert tcp any any -> any [1-1024] (msg:\"Connection to Privileged Port\"; sid:1000003;)"⟩

/- ====================================================================
   Theorems.
   ==================================================================== -/

theorem fusion_weighted_eq (ls : LayerState) (s t m : ℚ) :
    (if 0 < (if ls.suricataActive then (2:ℚ)/5 else 0) + (if ls.statActive then (1:ℚ)/4 else 0) + (if ls.mlTrained then (7:ℚ)/20 else 0) then (if ls.suricataActive then (2:ℚ)/5 else 0) / ((if ls.suricataActive then (2:ℚ)/5 else 0) + (if ls.statActive then (1:ℚ)/4 else 0) + (if ls.mlTrained then (7:ℚ)/20 else 0)) else 0) * s +
    (if 0 < (if ls.suricataActive then (2:ℚ)/5 else 0) + (if ls.statActive then (1:ℚ)/4 else 0) + (if ls.mlTrained then (7:ℚ)/20 else 0) then (if ls.statActive then (1:ℚ)/4 else 0) / ((if ls.suricataActive then (2:ℚ)/5 else 0) + (if ls.statActive then (1:ℚ)/4 else 0) + (if ls.mlTrained then (7:ℚ)/20 else 0)) else 0) * t +
    (if 0 < (if ls.suricataActive then (2:ℚ)/5 else 0) + (if ls.statActive then (1:ℚ)/4 else 0) + (if ls.mlTrained then (7:ℚ)/20 else 0) then (if ls.mlTrained then (7:ℚ)/20 else 0) / ((if ls.suricataActive then (2:ℚ)/5 else 0) + (if ls.statActive then (1:ℚ)/4 else 0) + (if ls.mlTrained then (7:ℚ)/20 else 0)) else 0) * m
    = specWeightedSum ls s t m := by
  obtain ⟨a, b, c⟩ := ls
  cases a <;> cases b <;> cases c <;>
    · simp only [specWeightedSum]
      norm_num
      try ring

theorem clamp_absorb (x : ℚ) : 1 ⊓ (0 ⊔ (1 ⊓ x)) = 1 ⊓ (0 ⊔ x) := by
  rcases le_total 1 x with h | h <;> simp [min_def, max_def] <;> split_ifs <;> linarith

/-- C1: with the default weights (w_sig=0.40, w_stat=0.25, w_ml=0.35), the
combined score of `HybridScorer.score_host` equals the claimed formula —
renormalized weighted sum over the active layers, consensus boost (×1.3 at ≥3
triggered layers, ×1.15 at ≥2), clamp to [0,1] — except that a layer counts as
triggered only when its score STRICTLY exceeds its threshold (sig > 0.25,
stat > 0.5, ml > 0.5), not at the thresholds themselves. -/
theorem score_host_combined_eq_amended (ls : LayerState) (s t m : ℚ) :
    scoreHostCombined defaultWeights ls s t m = hybridAmendedScore ls s t m := by
  simp only [scoreHostCombined, hybridAmendedScore, specTriggeredGt, defaultWeights]
  rw [fusion_weighted_eq ls s t m]
  split_ifs <;> first | rfl | exact clamp_absorb _

/-- C1 counterexample: with all three layers active and layer scores exactly
(0.25, 0.6, 0), the code produces combined 0.25 (one strictly-triggered layer,
no boost) while the claimed ≥-triggering formula produces 0.2875 (two
triggered layers, ×1.15 boost). -/
theorem score_host_combined_ne_claim :
    scoreHostCombined defaultWeights ⟨true, true, true⟩ (1/4) (3/5) 0 ≠
      hybridClaimScore ⟨true, true, true⟩ (1/4) (3/5) 0 := by
  norm_num [scoreHostCombined, hybridClaimScore, specWeightedSum, specTriggeredGe,
    defaultWeights]


/- ------------------------- C2: aggregator ------------------------- -/

theorem foldl_addEvent_connections (es : List AggEvent) (wd : WindowData) :
    (List.foldl addEvent wd es).connections = wd.connections + es.length := by
  induction es generalizing wd with
  | nil => simp
  | cons e es ih =>
    rw [List.foldl_cons, ih (addEvent wd e)]
    simp only [addEvent, List.length_cons]
    omega

theorem foldl_addEvent_packet_count (es : List AggEvent) (wd : WindowData) :
    (List.foldl addEvent wd es).packet_count = wd.packet_count + es.length := by
  induction es generalizing wd with
  | nil => simp
  | cons e es ih =>
    rw [List.foldl_cons, ih (addEvent wd e)]
    simp only [addEvent, List.length_cons]
    omega

theorem foldl_addEvent_total_bytes (es : List AggEvent) (wd : WindowData) :
    (List.foldl addEvent wd es).total_bytes =
      wd.total_bytes + (List.map AggEvent.packet_size es).sum := by
  induction es generalizing wd with
  | nil => simp
  | cons e es ih =>
    rw [List.foldl_cons, ih (addEvent wd e)]
    simp only [addEvent, List.map_cons, List.sum_cons]
    omega

theorem addEvent_ports_card (wd : WindowData) (e : AggEvent) :
    (addEvent wd e).ports.card ≤ wd.ports.card + 1 := by
  simp only [addEvent]
  cases e.dst_port with
  | none => simp
  | some p =>
    by_cases hp : p ≠ 0
    · simpa [hp] using Finset.card_insert_le p wd.ports
    · simp [hp]

theorem addEvent_dst_ips_card (wd : WindowData) (e : AggEvent) :
    (addEvent wd e).dst_ips.card ≤ wd.dst_ips.card + 1 := by
  simpa [addEvent] using Finset.card_insert_le e.dst_ip wd.dst_ips

theorem foldl_addEvent_ports_card (es : List AggEvent) (wd : WindowData) :
    (List.foldl addEvent wd es).ports.card ≤ wd.ports.card + es.length := by
  induction es generalizing wd with
  | nil => simp
  | cons e es ih =>
    have h1 := ih (addEvent wd e)
    have h2 := addEvent_ports_card wd e
    simp only [List.foldl_cons, List.length_cons]
    omega

theorem foldl_addEvent_dst_ips_card (es : List AggEvent) (wd : WindowData) :
    (List.foldl addEvent wd es).dst_ips.card ≤ wd.dst_ips.card + es.length := by
  induction es generalizing wd with
  | nil => simp
  | cons e es ih =>
    have h1 := ih (addEvent wd e)
    have h2 := addEvent_dst_ips_card wd e
    simp only [List.foldl_cons, List.length_cons]
    omega

theorem insertEvent_inv (W : ℤ) (st : AggState) (e : AggEvent)
    (h : AggStateInv W st) : AggStateInv W (insertEvent W st e) := by
  intro p hp
  simp only [insertEvent] at hp
  rcases hL : lookupWindow st (getWindowKey W e.timestamp, e.src_ip) with _ | wd0 <;>
    rw [hL] at hp
  · rcases List.mem_append.1 hp with h1 | h2
    · rcases List.mem_singleton.1 h1 with rfl
      exact ⟨[e], by simp, by simp, rfl⟩
    · exact h p h2
  · rcases List.mem_map.1 hp with ⟨q, hq, rfl⟩
    by_cases hk : q.1 = (getWindowKey W e.timestamp, e.src_ip)
    · obtain ⟨es, hne, hkeys, hbuild⟩ := h q hq
      rw [if_pos hk]
      refine ⟨es ++ [e], by simp, ?_, ?_⟩
      · intro x hx
        rcases List.mem_append.1 hx with hx | hx
        · exact hkeys x hx
        · rcases List.mem_singleton.1 hx with rfl
          exact hk.symm
      · show addEvent q.2 e = buildWindow W q.1.1 q.1.2 (es ++ [e])
        rw [hbuild]
        simp [buildWindow, List.foldl_append]
    · rw [if_neg hk]
      exact h q hq

theorem processEvents_inv (W : ℤ) (events : List AggEvent) :
    ∀ st acc, AggStateInv W st → (∀ wd ∈ acc, ∃ k, WindowFromEvents W k wd) →
      AggStateInv W (List.foldl (fun acc e =>
          let r := processEvent W acc.1 e
          (r.1, acc.2 ++ r.2)) (st, acc) events).1 ∧
      ∀ wd ∈ (List.foldl (fun acc e =>
          let r := processEvent W acc.1 e
          (r.1, acc.2 ++ r.2)) (st, acc) events).2, ∃ k, WindowFromEvents W k wd := by
  induction events with
  | nil => intro st acc h1 h2; exact ⟨h1, h2⟩
  | cons e es ih =>
    intro st acc h1 h2
    simp only [List.foldl_cons]
    have hins : AggStateInv W (insertEvent W st e) := insertEvent_inv W st e h1
    refine ih _ _ ?_ ?_
    · intro p hp
      exact hins p (List.mem_filter.1 hp).1
    · intro wd hwd
      rcases List.mem_append.1 hwd with hwd | hwd
      · exact h2 wd hwd
      · rcases List.mem_map.1 hwd with ⟨q, hq, rfl⟩
        exact ⟨q.1, hins q (List.mem_filter.1 hq).1⟩

theorem closedWindows_origin (W : ℤ) (events : List AggEvent) (wd : WindowData)
    (h : wd ∈ closedWindows W events) : ∃ k, WindowFromEvents W k wd := by
  obtain ⟨h1, h2⟩ := processEvents_inv W events [] [] (by intro p hp; cases hp)
    (by intro wd hwd; cases hwd)
  rcases List.mem_append.1 h with hw | hw
  · exact h2 wd hw
  · rcases List.mem_map.1 hw with ⟨q, hq, rfl⟩
    exact ⟨q.1, h1 q hq⟩

/-- C2: every window the aggregator closes (either by the tumbling-boundary
flush in `process_event` or by `flush_all`) was built from a nonempty list of
ingested events, and its saved metrics satisfy: connections_count equals the
number of those events, connections_count ≥ unique_ports, connections_count ≥
unique_dst_ips, total_bytes is the sum of the events' packet sizes, and
avg_packet_size · connections_count = total_bytes exactly. -/
theorem closed_window_metrics_invariant (W : ℤ) (events : List AggEvent)
    (wd : WindowData) (h : wd ∈ closedWindows W events) :
    ∃ es : List AggEvent, es ≠ [] ∧
      (saveWindow wd).connections_count = es.length ∧
      (saveWindow wd).unique_ports ≤ (saveWindow wd).connections_count ∧
      (saveWindow wd).unique_dst_ips ≤ (saveWindow wd).connections_count ∧
      (saveWindow wd).total_bytes = (List.map AggEvent.packet_size es).sum ∧
      (saveWindow wd).avg_packet_size * (saveWindow wd).connections_count
        = (saveWindow wd).total_bytes := by
  obtain ⟨k, es, hne, hkeys, hbuild⟩ := closedWindows_origin W events wd h
  subst hbuild
  have hconn := foldl_addEvent_connections es (emptyWindow W k.1 k.2)
  have hpc := foldl_addEvent_packet_count es (emptyWindow W k.1 k.2)
  have htot := foldl_addEvent_total_bytes es (emptyWindow W k.1 k.2)
  have hports := foldl_addEvent_ports_card es (emptyWindow W k.1 k.2)
  have hips := foldl_addEvent_dst_ips_card es (emptyWindow W k.1 k.2)
  simp only [emptyWindow] at hconn hpc htot hports hips
  have hlen : 0 < es.length := List.length_pos.2 hne
  refine ⟨es, hne, ?_, ?_, ?_, ?_, ?_⟩
  · simpa [saveWindow, buildWindow] using hconn
  · simp only [saveWindow, buildWindow]
    calc (List.foldl addEvent (emptyWindow W k.1 k.2) es).ports.card
        ≤ (∅ : Finset ℕ).card + es.length := by simpa [emptyWindow] using hports
      _ = es.length := by simp
      _ = (List.foldl addEvent (emptyWindow W k.1 k.2) es).connections := by
          simpa [emptyWindow] using hconn.symm
  · simp only [saveWindow, buildWindow]
    calc (List.foldl addEvent (emptyWindow W k.1 k.2) es).dst_ips.card
        ≤ (∅ : Finset String).card + es.length := by simpa [emptyWindow] using hips
      _ = es.length := by simp
      _ = (List.foldl addEvent (emptyWindow W k.1 k.2) es).connections := by
          simpa [emptyWindow] using hconn.symm
  · simpa [saveWindow, buildWindow] using htot
  · simp only [saveWindow, buildWindow]
    rw [show (List.foldl addEvent (emptyWindow W k.1 k.2) es).packet_count = es.length by
        simpa [emptyWindow] using hpc,
      show (List.foldl addEvent (emptyWindow W k.1 k.2) es).connections = es.length by
        simpa [emptyWindow] using hconn]
    rw [if_pos hlen]
    have : (es.length : ℚ) ≠ 0 := Nat.cast_ne_zero.2 hlen.ne.symm
    field_simp

/-- C2 witness: the invariant instantiated on a concrete one-event ingest with
a 60-second window. -/
theorem closed_window_metrics_invariant_witness :
    ∃ es : List AggEvent, es ≠ [] ∧
      (saveWindow sampleWindow).connections_count = es.length ∧
      (saveWindow sampleWindow).unique_ports ≤ (saveWindow sampleWindow).connections_count ∧
      (saveWindow sampleWindow).unique_dst_ips ≤ (saveWindow sampleWindow).connections_count ∧
      (saveWindow sampleWindow).total_bytes = (List.map AggEvent.packet_size es).sum ∧
      (saveWindow sampleWindow).avg_packet_size * (saveWindow sampleWindow).connections_count
        = (saveWindow sampleWindow).total_bytes :=
  closed_window_metrics_invariant 60 [sampleEvent] sampleWindow (by
    norm_num [closedWindows, processEvents, processEvent, insertEvent, lookupWindow,
      windowExpired, getWindowKey, pyTruncInt, emptyWindow, addEvent, sampleEvent, sampleWindow])


/- ------------------- C4: statistical alerts ------------------- -/

theorem calculateZScore_eq (c m s : ℝ) : calculateZScore c m s = |(c - m) / s| := by
  unfold calculateZScore
  split_ifs with h
  · simp [h]
  · rfl

theorem checkMetric_some_iff (threshold : ℝ) (hist : String → List ℝ)
    (ip name : String) (cur : ℝ) :
    (∃ a, checkMetric threshold hist ip name cur = some a) ↔
      (3 ≤ (calculateStatistics (hist name)).2.2 ∧
       threshold ≤ |(cur - (calculateStatistics (hist name)).1) /
          (calculateStatistics (hist name)).2.1|) := by
  simp only [checkMetric, calculateZScore_eq]
  split_ifs with h1 h2
  · exact iff_of_false (by simp) (fun hq => by omega)
  · exact iff_of_true ⟨_, rfl⟩ ⟨by omega, h2⟩
  · exact iff_of_false (by simp) (fun hq => h2 hq.2)

theorem checkMetric_eq_some (threshold : ℝ) (hist : String → List ℝ)
    (ip name : String) (cur : ℝ) (a : StatAlert)
    (h : checkMetric threshold hist ip name cur = some a) :
    a.anomaly_type = name ∧ a.severity = getSeverity a.score := by
  simp only [checkMetric] at h
  split_ifs at h with h1 h2
  injection h with h'
  subst h'
  exact ⟨rfl, rfl⟩

theorem mem_analyzeWindow (threshold : ℝ) (hist : String → List ℝ)
    (w : StatWindow) (a : StatAlert) :
    a ∈ analyzeWindow threshold hist w ↔
      (checkMetric threshold hist w.src_ip "connections_count" w.connections_count = some a ∨
       checkMetric threshold hist w.src_ip "unique_ports" w.unique_ports = some a ∨
       checkMetric threshold hist w.src_ip "unique_dst_ips" w.unique_dst_ips = some a ∨
       checkMetric threshold hist w.src_ip "total_bytes" w.total_bytes = some a) := by
  simp [analyzeWindow, List.mem_filterMap]

/-- C4 (amended): for each of the FOUR metrics `analyze_window` actually checks
(connections_count, unique_ports, unique_dst_ips, total_bytes —
avg_packet_size is not among them), an alert for that metric is emitted iff
the host has at least 3 observations among the newest 50 historical values and
|current − mean| / std ≥ 3.0; every emitted alert's severity is critical at
z ≥ 5, high at z ≥ 4, medium at z ≥ 3, else low. -/
theorem stat_alert_iff (hist : String → List ℝ) (w : StatWindow) (name : String)
    (hm : name ∈ statCheckedMetrics) :
    ((∃ a ∈ analyzeWindow 3 hist w, a.anomaly_type = name) ↔
      (3 ≤ (calculateStatistics (hist name)).2.2 ∧
       3 ≤ |(statCurrent w name - (calculateStatistics (hist name)).1) /
            (calculateStatistics (hist name)).2.1|)) ∧
    ∀ a ∈ analyzeWindow 3 hist w,
      a.severity = if 5 ≤ a.score then "critical" else if 4 ≤ a.score then "high"
        else if 3 ≤ a.score then "medium" else "low" := by
  constructor
  · simp only [statCheckedMetrics, List.mem_cons, List.not_mem_nil, or_false] at hm
    rcases hm with rfl | rfl | rfl | rfl
    · constructor
      · rintro ⟨a, ha, htype⟩
        rcases (mem_analyzeWindow 3 hist w a).1 ha with h | h | h | h
        · have hs := (checkMetric_some_iff 3 hist w.src_ip "connections_count" w.connections_count).1 ⟨a, h⟩
          simpa [statCurrent] using hs
        · exact absurd (((checkMetric_eq_some 3 hist w.src_ip _ _ a h).1).symm.trans htype)
            (by decide)
        · exact absurd (((checkMetric_eq_some 3 hist w.src_ip _ _ a h).1).symm.trans htype)
            (by decide)
        · exact absurd (((checkMetric_eq_some 3 hist w.src_ip _ _ a h).1).symm.trans htype)
            (by decide)
      · rintro ⟨h1, h2⟩
        obtain ⟨a, ha⟩ := (checkMetric_some_iff 3 hist w.src_ip "connections_count" w.connections_count).2
          ⟨h1, by simpa [statCurrent] using h2⟩
        exact ⟨a, (mem_analyzeWindow 3 hist w a).2 (Or.inl ha),
          (checkMetric_eq_some 3 hist w.src_ip _ _ a ha).1⟩
    · constructor
      · rintro ⟨a, ha, htype⟩
        rcases (mem_analyzeWindow 3 hist w a).1 ha with h | h | h | h
        · exact absurd (((checkMetric_eq_some 3 hist w.src_ip _ _ a h).1).symm.trans htype)
            (by decide)
        · have hs := (checkMetric_some_iff 3 hist w.src_ip "unique_ports" w.unique_ports).1 ⟨a, h⟩
          simpa [statCurrent] using hs
        · exact absurd (((checkMetric_eq_some 3 hist w.src_ip _ _ a h).1).symm.trans htype)
            (by decide)
        · exact absurd (((checkMetric_eq_some 3 hist w.src_ip _ _ a h).1).symm.trans htype)
            (by decide)
      · rintro ⟨h1, h2⟩
        obtain ⟨a, ha⟩ := (checkMetric_some_iff 3 hist w.src_ip "unique_ports" w.unique_ports).2
          ⟨h1, by simpa [statCurrent] using h2⟩
        exact ⟨a, (mem_analyzeWindow 3 hist w a).2 (Or.inr (Or.inl ha)),
          (checkMetric_eq_some 3 hist w.src_ip _ _ a ha).1⟩
    · constructor
      · rintro ⟨a, ha, htype⟩
        rcases (mem_analyzeWindow 3 hist w a).1 ha with h | h | h | h
        · exact absurd (((checkMetric_eq_some 3 hist w.src_ip _ _ a h).1).symm.trans htype)
            (by decide)
        · exact absurd (((checkMetric_eq_some 3 hist w.src_ip _ _ a h).1).symm.trans htype)
            (by decide)
        · have hs := (checkMetric_some_iff 3 hist w.src_ip "unique_dst_ips" w.unique_dst_ips).1 ⟨a, h⟩
          simpa [statCurrent] using hs
        · exact absurd (((checkMetric_eq_some 3 hist w.src_ip _ _ a h).1).symm.trans htype)
            (by decide)
      · rintro ⟨h1, h2⟩
        obtain ⟨a, ha⟩ := (checkMetric_some_iff 3 hist w.src_ip "unique_dst_ips" w.unique_dst_ips).2
          ⟨h1, by simpa [statCurrent] using h2⟩
        exact ⟨a, (mem_analyzeWindow 3 hist w a).2 (Or.inr (Or.inr (Or.inl ha))),
          (checkMetric_eq_some 3 hist w.src_ip _ _ a ha).1⟩
    · constructor
      · rintro ⟨a, ha, htype⟩
        rcases (mem_analyzeWindow 3 hist w a).1 ha with h | h | h | h
        · exact absurd (((checkMetric_eq_some 3 hist w.src_ip _ _ a h).1).symm.trans htype)
            (by decide)
        · exact absurd (((checkMetric_eq_some 3 hist w.src_ip _ _ a h).1).symm.trans htype)
            (by decide)
        · exact absurd (((checkMetric_eq_some 3 hist w.src_ip _ _ a h).1).symm.trans htype)
            (by decide)
        · have hs := (checkMetric_some_iff 3 hist w.src_ip "total_bytes" w.total_bytes).1 ⟨a, h⟩
          simpa [statCurrent] using hs
      · rintro ⟨h1, h2⟩
        obtain ⟨a, ha⟩ := (checkMetric_some_iff 3 hist w.src_ip "total_bytes" w.total_bytes).2
          ⟨h1, by simpa [statCurrent] using h2⟩
        exact ⟨a, (mem_analyzeWindow 3 hist w a).2 (Or.inr (Or.inr (Or.inr ha))),
          (checkMetric_eq_some 3 hist w.src_ip _ _ a ha).1⟩
  · intro a ha
    rcases (mem_analyzeWindow 3 hist w a).1 ha with h | h | h | h <;>
      · rw [(checkMetric_eq_some 3 hist w.src_ip _ _ a h).2]
        rfl


/-- C4 counterexample: a host whose `avg_packet_size` history has 4
observations (mean 3, std 3) and whose current `avg_packet_size` is 100
(z = 97/3 ≥ 3) satisfies the claimed emission condition for the fifth metric,
yet `analyze_window` emits no alert at all for it — the fifth metric is never
checked. -/
theorem stat_alert_misses_avg_packet_size :
    (3 ≤ (calculateStatistics (anomalousAvgHist "avg_packet_size")).2.2 ∧
     3 ≤ |(statCurrent anomalousAvgWindow "avg_packet_size" -
           (calculateStatistics (anomalousAvgHist "avg_packet_size")).1) /
          (calculateStatistics (anomalousAvgHist "avg_packet_size")).2.1|) ∧
    ∀ a ∈ analyzeWindow 3 anomalousAvgHist anomalousAvgWindow,
      a.anomaly_type ≠ "avg_packet_size" := by
  have h9 : Real.sqrt 9 = 3 := by
    rw [show (9:ℝ) = 3^2 by norm_num]
    exact Real.sqrt_sq (by norm_num)
  have hl : anomalousAvgHist "avg_packet_size" = [0, 0, 6, 6] := by
    simp [anomalousAvgHist]
  have hcalc : calculateStatistics (anomalousAvgHist "avg_packet_size") = (3, 3, 4) := by
    rw [hl]
    simp only [calculateStatistics, List.take, List.length, List.sum_cons, List.sum_nil,
      List.map, Prod.ext_iff]
    norm_num
    exact h9
  have hnil : ∀ name : String, name ≠ "avg_packet_size" → anomalousAvgHist name = [] := by
    intro name h
    simp [anomalousAvgHist, h]
  have hcm : ∀ (name : String) (cur : ℝ), name ≠ "avg_packet_size" →
      checkMetric 3 anomalousAvgHist anomalousAvgWindow.src_ip name cur = none := by
    intro name cur h
    simp only [checkMetric]
    rw [if_pos]
    rw [hnil name h]
    norm_num [calculateStatistics]
  have h1 := hcm "connections_count" anomalousAvgWindow.connections_count (by decide)
  have h2 := hcm "unique_ports" anomalousAvgWindow.unique_ports (by decide)
  have h3 := hcm "unique_dst_ips" anomalousAvgWindow.unique_dst_ips (by decide)
  have h4 := hcm "total_bytes" anomalousAvgWindow.total_bytes (by decide)
  have hA : analyzeWindow 3 anomalousAvgHist anomalousAvgWindow = [] := by
    simp [analyzeWindow, h1, h2, h3, h4]
  constructor
  · rw [hcalc]
    have hs : statCurrent anomalousAvgWindow "avg_packet_size" = 100 := by
      simp only [statCurrent, anomalousAvgWindow]
      rw [if_neg (by decide), if_neg (by decide), if_neg (by decide), if_neg (by decide)]
      simp
    rw [hs]
    refine ⟨by norm_num, ?_⟩
    rw [abs_of_nonneg (by norm_num)]
    norm_num
  · intro a ha
    rw [hA] at ha
    cases ha

/-- C4 witness: the amended per-metric emission property instantiated on
`connections_count` for a host with no history (both sides false). -/
theorem stat_alert_iff_witness :
    "connections_count" ∈ statCheckedMetrics ∧
    (((∃ a ∈ analyzeWindow 3 emptyHist anomalousAvgWindow,
        a.anomaly_type = "connections_count") ↔
      (3 ≤ (calculateStatistics (emptyHist "connections_count")).2.2 ∧
       3 ≤ |(statCurrent anomalousAvgWindow "connections_count" -
             (calculateStatistics (emptyHist "connections_count")).1) /
            (calculateStatistics (emptyHist "connections_count")).2.1|)) ∧
    ∀ a ∈ analyzeWindow 3 emptyHist anomalousAvgWindow,
      a.severity = if 5 ≤ a.score then "critical" else if 4 ≤ a.score then "high"
        else if 3 ≤ a.score then "medium" else "low") :=
  ⟨by simp [statCheckedMetrics],
   stat_alert_iff emptyHist anomalousAvgWindow "connections_count"
     (by simp [statCheckedMetrics])⟩

/- ------------------- C6/C7: host baselines ------------------- -/

/-- C7: `update_host_profile` upserts exactly ONE `device_profiles` row — the
one for `total_bytes` — instead of one row per metric: the MIN/MAX query and
the INSERT sit outside the metric loop, so only the last loop iteration's
bindings are persisted.  In particular no `connections_count` row is ever
written. -/
theorem update_host_profile_single_row (hist : String → List ℝ) (ip : String) :
    List.map BaselineRow.metric_name (updateHostProfile hist ip) = ["total_bytes"] ∧
    ∀ r ∈ updateHostProfile hist ip, r.metric_name ≠ "connections_count" := by
  refine ⟨rfl, ?_⟩
  intro r hr
  rcases List.mem_singleton.1 hr with rfl
  exact (by decide : ("total_bytes" : String) ≠ "connections_count")

/-- C6 (amended): every baseline row `update_host_profile` stores has
sample_count ≥ 0, std ≥ 0 (there is no MIN_STD floor in the code), and
sample_count = 0 implies mean = 0. -/
theorem baseline_row_invariant (hist : String → List ℝ) (ip : String)
    (r : BaselineRow) (h : r ∈ updateHostProfile hist ip) :
    0 ≤ r.sample_count ∧ 0 ≤ r.std ∧ (r.sample_count = 0 → r.mean = 0) := by
  rcases List.mem_singleton.1 h with rfl
  refine ⟨Nat.zero_le _, ?_, ?_⟩
  · show 0 ≤ (calculateStatistics (hist "total_bytes")).2.1
    simp only [calculateStatistics]
    split_ifs
    · exact le_refl 0
    · exact Real.sqrt_nonneg _
  · intro h0
    show (calculateStatistics (hist "total_bytes")).1 = 0
    replace h0 : (calculateStatistics (hist "total_bytes")).2.2 = 0 := h0
    simp only [calculateStatistics] at h0 ⊢
    split_ifs at h0 ⊢ with hcond
    · rfl
    · exfalso
      have h0' : (List.take 50 (hist "total_bytes")).length = 0 := h0
      omega

/-- C6 witness: the amended invariant instantiated on the row stored for a
host with an empty history (mean 0, std 0, sample_count 0). -/
theorem baseline_row_invariant_witness :
    0 ≤ ((updateHostProfile emptyHist "10.0.0.3").headD
      ⟨"", "", 0, 0, 0, 0, 0⟩).sample_count ∧
    0 ≤ ((updateHostProfile emptyHist "10.0.0.3").headD
      ⟨"", "", 0, 0, 0, 0, 0⟩).std ∧
    (((updateHostProfile emptyHist "10.0.0.3").headD
        ⟨"", "", 0, 0, 0, 0, 0⟩).sample_count = 0 →
      ((updateHostProfile emptyHist "10.0.0.3").headD
        ⟨"", "", 0, 0, 0, 0, 0⟩).mean = 0) :=
  baseline_row_invariant emptyHist "10.0.0.3" _ (by simp [updateHostProfile])

/-- C6 counterexample: after two identical `total_bytes` observations (value
5), the stored baseline row has sample_count = 2 > 0 but std = 0 < 0.01 —
the claimed MIN_STD floor does not exist in the code. -/
theorem baseline_row_std_below_floor :
    ∃ r ∈ updateHostProfile flatHist "10.0.0.9", r.std < 1/100 ∧ 0 < r.sample_count := by
  have hl : flatHist "total_bytes" = [5, 5] := rfl
  have hcalc : calculateStatistics (flatHist "total_bytes") = (5, 0, 2) := by
    rw [hl]
    simp only [calculateStatistics, List.take, List.length, List.sum_cons, List.sum_nil,
      List.map, Prod.ext_iff]
    norm_num
  refine ⟨_, List.mem_singleton.2 rfl, ?_, ?_⟩
  · show (calculateStatistics (flatHist "total_bytes")).2.1 < 1/100
    rw [hcalc]
    norm_num
  · show 0 < (calculateStatistics (flatHist "total_bytes")).2.2
    rw [hcalc]
    norm_num


/- ------------------- C3: protection against training on attacks ------------------- -/

theorem trainerUpdateProfile_profile_congr (st st' : TrainerState)
    (hh : List.filter (fun r => !r.is_anomaly) st.history =
      List.filter (fun r => !r.is_anomaly) st'.history)
    (hp : st.profile = st'.profile) :
    (trainerUpdateProfile st).profile = (trainerUpdateProfile st').profile := by
  simp only [trainerUpdateProfile, trainerIsLearning, hh, hp]
  split_ifs <;> first | exact hp | rfl

/-- C3: (1) a sample flagged anomalous while the host is not in learning mode
is dropped entirely by `add_metrics_sample` — the trainer state (history and
profile) is unchanged and False is returned; (2) the baseline profile computed
by `_update_host_profile` depends only on the non-anomalous history rows
(`WHERE is_anomaly = 0`), so anomalous rows never enter the baseline; (3) every
feature vector the ML trainer fits on comes from a row with is_normal = 1, so
rows recorded with is_normal = 0 are never used for training. -/
theorem training_on_attacks_protection (st : TrainerState) (ms : List (String × ℝ))
    (tbl : List TrainingRow) :
    (trainerIsLearning st = false → addMetricsSample st ms true = (st, false)) ∧
    ((trainerUpdateProfile st).profile =
      (trainerUpdateProfile
        { st with history := List.filter (fun r => !r.is_anomaly) st.history }).profile) ∧
    (∀ v ∈ trainingMatrix tbl, ∃ r ∈ tbl, r.is_normal = true ∧
      v = [r.connections_count, r.unique_ports, r.unique_dst_ips,
           r.total_bytes, r.avg_packet_size]) := by
  refine ⟨?_, ?_, ?_⟩
  · intro h
    simp [addMetricsSample, h]
  · exact trainerUpdateProfile_profile_congr st
      { st with history := List.filter (fun r => !r.is_anomaly) st.history }
      (by simp [List.filter_filter]) rfl
  · intro v hv
    simp only [trainingMatrix, List.mem_map] at hv
    obtain ⟨r, hr, rfl⟩ := hv
    exact ⟨r, (List.mem_filter.1 hr).1, by simpa using (List.mem_filter.1 hr).2, rfl⟩

/-- C3 witness: a host out of learning mode rejects an anomalous sample
without touching its state. -/
theorem training_on_attacks_protection_witness :
    trainerIsLearning detectionModeState = false ∧
    addMetricsSample detectionModeState [] true = (detectionModeState, false) :=
  ⟨rfl, (training_on_attacks_protection detectionModeState [] []).1 rfl⟩


/- ------------------- C5: ML detection ------------------- -/

theorem logistic_mem (t : ℝ) : 0 ≤ logistic t ∧ logistic t ≤ 1 := by
  have h := Real.exp_pos (-t)
  constructor
  · unfold logistic
    positivity
  · unfold logistic
    rw [div_le_one (by positivity)]
    linarith

theorem getMlScore_eq (m : MLModelState) (f : List ℝ) :
    getMlScore m f =
      if m.is_trained then logistic (-5 * m.decisionRaw (standardize m f)) else 0 := by
  cases hm : m.is_trained with
  | false => simp [getMlScore, hm]
  | true =>
    simp only [getMlScore, hm, Bool.true_eq, not_true_eq_false, if_false, if_true]
    rw [show m.decisionRaw (standardize m f) * 5 = -(-5 * m.decisionRaw (standardize m f))
      by ring]
    have hmem := logistic_mem (-5 * m.decisionRaw (standardize m f))
    rw [show (1:ℝ) / (1 + Real.exp (-(-5 * m.decisionRaw (standardize m f)))) =
      logistic (-5 * m.decisionRaw (standardize m f)) from rfl]
    rw [max_eq_right hmem.1, min_eq_right hmem.2]

/-- C5: inference computes ml_score = σ(−5·decision(standardize(x))) when a
model is trained and 0 otherwise; combined = 0.4·stat + 0.6·ml when trained
and combined = stat when not; an MLAlert is emitted iff combined ≥ 0.5, with
severity critical ≥ 0.9, high ≥ 0.75, medium ≥ 0.6, else low; any alert from
an untrained model has ml_score = 0 and combined_score = stat_score. -/
theorem ml_detect_spec (threshold : ℝ) (m : MLModelState) (hist : String → List ℝ)
    (ip : String) (ms : List (String × ℝ)) :
    (getMlScore m (extractFeatures ms) =
      (if m.is_trained then
        logistic (-5 * m.decisionRaw (standardize m (extractFeatures ms))) else 0)) ∧
    ((mlDetect (2/5) threshold m hist ip ms).isSome ↔
      1/2 ≤ mlCombinedSpec threshold m hist ms) ∧
    (∀ a, mlDetect (2/5) threshold m hist ip ms = some a →
      a.combined_score = mlCombinedSpec threshold m hist ms ∧
      a.stat_score = getStatScore threshold hist ms ∧
      a.severity = (if 9/10 ≤ a.combined_score then "critical"
        else if 3/4 ≤ a.combined_score then "high"
        else if 3/5 ≤ a.combined_score then "medium" else "low")) ∧
    (m.is_trained = false → ∀ a, mlDetect (2/5) threshold m hist ip ms = some a →
      a.ml_score = 0 ∧ a.combined_score = a.stat_score) := by
  have hco : (1 - 2/5 : ℝ) = 3/5 := by norm_num
  refine ⟨getMlScore_eq m (extractFeatures ms), ?_, ?_, ?_⟩
  · simp only [mlDetect, mlCombinedSpec, hco]
    by_cases hc : (if m.is_trained = true then
        2/5 * getStatScore threshold hist ms + 3/5 * getMlScore m (extractFeatures ms)
      else getStatScore threshold hist ms) < 1/2
    · rw [if_pos hc]
      exact iff_of_false (by simp) (not_le.2 hc)
    · rw [if_neg hc]
      exact iff_of_true (by simp) (not_lt.1 hc)
  · intro a ha
    simp only [mlDetect, hco] at ha
    by_cases hc : (if m.is_trained = true then
        2/5 * getStatScore threshold hist ms + 3/5 * getMlScore m (extractFeatures ms)
      else getStatScore threshold hist ms) < 1/2
    · rw [if_pos hc] at ha
      cases ha
    · rw [if_neg hc] at ha
      injection ha with ha
      subst ha
      exact ⟨rfl, rfl, rfl⟩
  · intro hm a ha
    simp only [mlDetect, hm, Bool.false_eq_true, if_false] at ha
    by_cases hc : getStatScore threshold hist ms < 1/2
    · rw [if_pos hc] at ha
      cases ha
    · rw [if_neg hc] at ha
      injection ha with ha
      subst ha
      exact ⟨rfl, rfl⟩

/-- C5 witness: the specification instantiated on an untrained model over a
host with no window history. -/
theorem ml_detect_spec_witness :
    (getMlScore untrainedModel (extractFeatures []) =
      (if untrainedModel.is_trained then
        logistic (-5 * untrainedModel.decisionRaw
          (standardize untrainedModel (extractFeatures []))) else 0)) ∧
    ((mlDetect (2/5) 3 untrainedModel emptyHist "10.0.0.7" []).isSome ↔
      1/2 ≤ mlCombinedSpec 3 untrainedModel emptyHist []) ∧
    (∀ a, mlDetect (2/5) 3 untrainedModel emptyHist "10.0.0.7" [] = some a →
      a.combined_score = mlCombinedSpec 3 untrainedModel emptyHist [] ∧
      a.stat_score = getStatScore 3 emptyHist [] ∧
      a.severity = (if 9/10 ≤ a.combined_score then "critical"
        else if 3/4 ≤ a.combined_score then "high"
        else if 3/5 ≤ a.combined_score then "medium" else "low")) ∧
    (untrainedModel.is_trained = false →
      ∀ a, mlDetect (2/5) 3 untrainedModel emptyHist "10.0.0.7" [] = some a →
      a.ml_score = 0 ∧ a.combined_score = a.stat_score) :=
  ml_detect_spec 3 untrainedModel emptyHist "10.0.0.7" []


/- ------------------- C8: rule matching ------------------- -/

theorem mem_matchPacket (rules : List Rule) (e : AggEvent) (r : Rule) :
    r ∈ matchPacket rules e ↔
      (r ∈ rules ∧
       (lowerStr r.protocol = "ip" ∨ lowerStr r.protocol = lowerStr e.protocol) ∧
       matchIp r.src_ip e.src_ip = true ∧ matchIp r.dst_ip e.dst_ip = true ∧
       matchPort r.src_port e.src_port = true ∧ matchPort r.dst_port e.dst_port = true) := by
  induction rules with
  | nil => simp [matchPacket]
  | cons r0 rest ih =>
    simp only [matchPacket]
    split_ifs with h1 h2 h3 h4 h5
    · rw [ih]
      constructor
      · rintro ⟨hm, hp⟩
        exact ⟨List.mem_cons_of_mem _ hm, hp⟩
      · rintro ⟨hm, hp⟩
        rcases List.mem_cons.1 hm with rfl | hm
        · rcases hp.1 with h | h
          · exact absurd h h1.1
          · exact absurd h h1.2
        · exact ⟨hm, hp⟩
    · rw [ih]
      constructor
      · rintro ⟨hm, hp⟩
        exact ⟨List.mem_cons_of_mem _ hm, hp⟩
      · rintro ⟨hm, hp⟩
        rcases List.mem_cons.1 hm with rfl | hm
        · rw [hp.2.1] at h2
          cases h2
        · exact ⟨hm, hp⟩
    · rw [ih]
      constructor
      · rintro ⟨hm, hp⟩
        exact ⟨List.mem_cons_of_mem _ hm, hp⟩
      · rintro ⟨hm, hp⟩
        rcases List.mem_cons.1 hm with rfl | hm
        · rw [hp.2.2.1] at h3
          cases h3
        · exact ⟨hm, hp⟩
    · rw [ih]
      constructor
      · rintro ⟨hm, hp⟩
        exact ⟨List.mem_cons_of_mem _ hm, hp⟩
      · rintro ⟨hm, hp⟩
        rcases List.mem_cons.1 hm with rfl | hm
        · rw [hp.2.2.2.1] at h4
          cases h4
        · exact ⟨hm, hp⟩
    · rw [ih]
      constructor
      · rintro ⟨hm, hp⟩
        exact ⟨List.mem_cons_of_mem _ hm, hp⟩
      · rintro ⟨hm, hp⟩
        rcases List.mem_cons.1 hm with rfl | hm
        · rw [hp.2.2.2.2] at h5
          cases h5
        · exact ⟨hm, hp⟩
    · rw [List.mem_cons, ih]
      constructor
      · rintro (rfl | ⟨hm, hp⟩)
        · refine ⟨List.mem_cons_self _ _, ?_,
            by simpa using h2, by simpa using h3,
            by simpa using h4, by simpa using h5⟩
          rcases not_and_or.1 h1 with h | h
          · exact Or.inl (not_not.1 h)
          · exact Or.inr (not_not.1 h)
        · exact ⟨List.mem_cons_of_mem _ hm, hp⟩
      · rintro ⟨hm, hp⟩
        rcases List.mem_cons.1 hm with rfl | hm
        · exact Or.inl rfl
        · exact Or.inr ⟨hm, hp⟩

theorem matchPort_none (sel : String) : matchPort sel none = decide (sel = "any") := by
  by_cases h : sel = "any" <;> simp [matchPort, h]

/-- C8: a loaded rule matches a packet iff its protocol is `ip` or equals the
packet's protocol case-insensitively, both IP selectors match and both port
selectors match, where an absent packet port matches only the selector `any`;
`check_packet` builds and persists exactly one signature alert per matching
rule, in order, so a packet matched by k rules yields k alerts. -/
theorem suricata_match_semantics (rules : List Rule) (e : AggEvent) :
    (∀ r : Rule, r ∈ matchPacket rules e ↔
      (r ∈ rules ∧
       (lowerStr r.protocol = "ip" ∨ lowerStr r.protocol = lowerStr e.protocol) ∧
       matchIp r.src_ip e.src_ip = true ∧ matchIp r.dst_ip e.dst_ip = true ∧
       matchPort r.src_port e.src_port = true ∧ matchPort r.dst_port e.dst_port = true)) ∧
    (∀ sel : String, matchPort sel none = decide (sel = "any")) ∧
    checkPacket rules e = List.map (mkSigAlert e) (matchPacket rules e) ∧
    (checkPacket rules e).length = (matchPacket rules e).length := by
  refine ⟨fun r => mem_matchPacket rules e r, matchPort_none, rfl, ?_⟩
  simp [checkPacket]

/- ------------------- C9: rule-load error handling ------------------- -/

theorem addRulesStep_shift (ls : List String) : ∀ (db0 : List Rule) (n : ℕ),
    List.foldl addRulesStep (db0, n) ls =
      ((List.foldl addRulesStep (db0, 0) ls).1,
       n + (List.foldl addRulesStep (db0, 0) ls).2) := by
  induction ls with
  | nil => intro db0 n; simp
  | cons l0 ls ih =>
    intro db0 n
    simp only [List.foldl_cons, addRulesStep]
    split_ifs with h h2
    · exact ih db0 n
    · simp only [Nat.zero_add]
      rw [ih _ (n + 1), ih _ 1]
      simp only [Prod.mk.injEq, true_and]
      omega
    · simp only [Nat.zero_add, Nat.add_zero]
      exact ih _ n

/-- C9 (amended): a line that fails the structural header pattern is rejected
— `parse_rule` returns None and `add_rule` leaves the rule set unchanged with
a False result; a skipped or rejected line does not affect the loading of the
remaining lines; and an accepted line adds exactly 1 to the count while the
rest of the set continues loading from the updated rule set.  (A rule lacking
`sid:` or `msg:` is NOT rejected: `sid` defaults to 0 and `msg` to the empty
string.) -/
theorem rule_load_rejects_only_structural (db : List Rule) (line : String)
    (rest : List String) :
    (parseRule line = none → addRule db line = (db, false)) ∧
    ((stripChars line.data = [] ∨ (stripChars line.data).headD ' ' = '#' ∨
        parseRule (String.mk (stripChars line.data)) = none) →
      addRulesFromText db (line :: rest) = addRulesFromText db rest) ∧
    (∀ r : Rule, parseRule (String.mk (stripChars line.data)) = some r →
      stripChars line.data ≠ [] → (stripChars line.data).headD ' ' ≠ '#' →
      addRulesFromText db (line :: rest) =
        ((addRulesFromText (upsertRule db r) rest).1,
         (addRulesFromText (upsertRule db r) rest).2 + 1)) := by
  refine ⟨?_, ?_, ?_⟩
  · intro h
    simp [addRule, h]
  · intro h
    simp only [addRulesFromText, List.foldl_cons, addRulesStep]
    rcases h with h | h | h
    · rw [if_pos (by simp [h])]
    · rw [if_pos (by rw [List.headD_eq_head?] at h; simp [h])]
    · split_ifs with hskip haccept
      · rfl
      · exfalso
        simp [addRule, h] at haccept
      · simp only [Nat.add_zero]
        rw [show (addRule db (String.mk (stripChars line.data))).1 = db from
          by simp [addRule, h]]
  · intro r hr hne hcomment
    have hcond : ((stripChars line.data).isEmpty ||
        decide ((stripChars line.data).headD ' ' = '#')) = false := by
      rcases hsl : stripChars line.data with _ | ⟨c, ts⟩
      · exact absurd hsl hne
      · rw [hsl] at hcomment
        simp at hcomment
        simp [hcomment]
    simp only [addRulesFromText, List.foldl_cons, addRulesStep]
    rw [if_neg (by rw [List.headD_eq_head?] at hcomment; simp [hne, hcomment])]
    simp only [addRule, hr]
    rw [addRulesStep_shift]
    simp [addRulesFromText]
    omega

/-- C9 counterexample: a structurally well-formed rule with no `sid:` and no
`msg:` option is ACCEPTED by `parse_rule` — with sid 0 (not a positive
integer) and empty msg — and add_rules_from_text counts it, where the claim
requires it to be rejected. -/
theorem parse_rule_accepts_missing_sid_msg :
    ((parseRule "alert tcp any any -> any 80 (content:\"x\";)").map Rule.sid
      = some 0) ∧
    ((parseRule "alert tcp any any -> any 80 (content:\"x\";)").map Rule.msg
      = some "") ∧
    (addRulesFromText [] ["alert tcp any any -> any 80 (content:\"x\";)"]).2 = 1 := by
  refine ⟨by decide, by decide, by decide⟩

/-- C9 witness: a line failing the header pattern is rejected and not added. -/
theorem rule_load_rejects_only_structural_witness :
    parseRule "not a rule" = none ∧ addRule [] "not a rule" = ([], false) :=
  ⟨by decide, (rule_load_rejects_only_structural [] "not a rule" []).1 (by decide)⟩

/- ------------------- C10: signature-alert severity ------------------- -/

/-- C10: the severity of an emitted signature alert is a function of the
matching rule alone: the alert built by `check_packet` carries
`_get_severity_from_rule(rule)`, which is critical iff the rule's dst_port
selector STRING is one of 23/445/135/3389, else high iff it is one of
22/5900/5901 or the action is drop/reject, else medium — so the bracket-range
rule `dst_port = "[1-1024]"` gets severity medium even though a packet with
destination port 23 or 3389 matches it. -/
theorem severity_from_rule_only (r : Rule) (e : AggEvent) :
    ((mkSigAlert e r).severity = getSeverityFromRule r) ∧
    (getSeverityFromRule r = "critical" ↔
      (r.dst_port = "23" ∨ r.dst_port = "445" ∨ r.dst_port = "135" ∨
       r.dst_port = "3389")) ∧
    (getSeverityFromRule r = "high" ↔
      (¬(r.dst_port = "23" ∨ r.dst_port = "445" ∨ r.dst_port = "135" ∨
         r.dst_port = "3389") ∧
       (r.dst_port = "22" ∨ r.dst_port = "5900" ∨ r.dst_port = "5901" ∨
        r.action = "drop" ∨ r.action = "reject"))) ∧
    (getSeverityFromRule r = "medium" ↔
      (¬(r.dst_port = "23" ∨ r.dst_port = "445" ∨ r.dst_port = "135" ∨
         r.dst_port = "3389") ∧
       ¬(r.dst_port = "22" ∨ r.dst_port = "5900" ∨ r.dst_port = "5901" ∨
         r.action = "drop" ∨ r.action = "reject"))) ∧
    matchPort "[1-1024]" (some 23) = true ∧
    bracketRangeRule.dst_port = "[1-1024]" ∧
    getSeverityFromRule bracketRangeRule = "medium" := by
  refine ⟨rfl, ?_, ?_, ?_, by decide, by decide, by decide⟩ <;>
    · simp only [getSeverityFromRule]
      split_ifs with hc hh ha <;> simp_all <;> tauto

end NdtpIds






